import Mathlib

/-!
# Verification of the bored-chat E2EE subsystem

Shallow embedding of the encryption subsystem of the bored-chat client
(`src/services/crypto.ts`, `src/services/multiDeviceEncrypt.ts`, the
message store, `src/contexts/AuthContext.tsx` and the ChatWindow
component), together with proofs and refutations of the frozen claims.

The NaCl `box` primitive (an external library, `tweetnacl`) is modelled
symbolically, in the standard Dolev-Yao style: a 32-byte value is an
abstract `Nat`; the public key of a secret `s` is `s + 1`; the
Diffie-Hellman agreement of a secret and a public key is the symmetric
pairing of the two underlying secrets; a ciphertext is a record holding
the shared key, the nonce and the plaintext, and `box.open` succeeds
exactly when it recomputes the same shared key and nonce.  Randomness
(ephemeral keys, nonces) is passed explicitly.  Base64-encoded strings
are modelled by `B64`: either a valid key value or an undecodable
string.  `JSON.parse` composed with HTML-entity decoding is passed as an
explicit deterministic oracle `parseOf` where message contents are
parsed.
-/

namespace BoredChat

/-- A base64-encoded 32-byte value as it appears in the TypeScript code:
either a string that decodes to a valid key (abstracted as a `Nat`), or a
string that fails to decode / has the wrong length (`tweetnacl` throws on
it, and every `try`/`catch` in `crypto.ts` turns that into `null`).
The empty string `""` is `invalid ""`; it is the only falsy key string. -/
inductive B64 where
  | invalid : String → B64
  | key : Nat → B64
deriving DecidableEq, Repr

/-- The empty key string, returned by `getOrCreateKeyPair` on the server
side (`typeof window === 'undefined'`). -/
def emptyB64 : B64 := .invalid ""

/-- Embedding of `KeyPair` from `crypto.ts`: both components base64 strings. -/
structure KeyPair where
  publicKey : B64
  secretKey : B64
deriving DecidableEq, Repr

/-- Symbolic curve25519: the public key derived from a secret scalar.
Injective; `pubOf s ≥ 1`, so `0` is never a derived public value. -/
def pubOf (s : Nat) : Nat := s + 1

/-- Symbolic Diffie-Hellman agreement between my secret `s` and the
other side's public value `p`.  `Nat.pair` of the unordered pair of the
two secrets, hence `dh a (pubOf b) = dh b (pubOf a)`. -/
def dh (s p : Nat) : Nat := Nat.pair (min s (p - 1)) (max s (p - 1))

/-- Embedding of `nacl.box.keyPair()` derandomised: the keypair grown from a seed. -/
def generateKeyPair (seed : Nat) : KeyPair :=
  { publicKey := .key (pubOf seed), secretKey := .key seed }

/-- Symbolic output of `nacl.box`: an authenticated ciphertext records
the shared key it was sealed under, the nonce, and the message.
`nacl.box.open` succeeds iff it recomputes the same shared key and is
given the same nonce. -/
structure Box where
  shared : Nat
  nonce : Nat
  msg : String
deriving DecidableEq, Repr

/-- Embedding of `EncryptedMessage` from `crypto.ts`: three base64 strings.  The
`ciphertext` and `nonce` fields are modelled by what they decode to
(`none`: the string does not decode / has a wrong length, so `tweetnacl`
throws and the surrounding `catch` yields `null`). -/
structure EncryptedMessage where
  ciphertext : Option Box
  nonce : Option Nat
  ephemeralPublicKey : B64
deriving DecidableEq, Repr

/-- Embedding of `nacl.box.open(ciphertext, nonce, ephemeralPublicKey, mySecret)`. -/
def naclOpen (b : Box) (nonce : Nat) (ephPub : B64) (mySecret : Nat) : Option String :=
  match ephPub with
  | .invalid _ => none
  | .key pe => if b.shared = dh mySecret pe ∧ b.nonce = nonce then some b.msg else none

/-- Embedding of `encryptMessage(plaintext, recipientPublicKey)` from `crypto.ts`,
derandomised by the ephemeral secret and the nonce.  Returns `none`
exactly when the recipient public key string is malformed (decode or
`nacl.box` throws, caught and turned into `null`). -/
def encryptMessage (plaintext : String) (recipientPublicKey : B64)
    (eph nonce : Nat) : Option EncryptedMessage :=
  match recipientPublicKey with
  | .invalid _ => none
  | .key p =>
      some { ciphertext := some { shared := dh eph p, nonce := nonce, msg := plaintext },
             nonce := some nonce,
             ephemeralPublicKey := .key (pubOf eph) }

/-- What `localStorage.getItem('bored_chat_e2ee_keys')` holds. -/
inductive StoredSlot where
  | absent : StoredSlot
  | unparsable : StoredSlot
  | keys : KeyPair → StoredSlot
deriving DecidableEq, Repr

/-- The ambient state `crypto.ts` reads: whether `window` exists, the
stored key slot, and the seed `generateKeyPair` would consume if a fresh
pair had to be made. -/
structure CryptoStore where
  hasWindow : Bool
  storedKeys : StoredSlot
  freshSeed : Nat
deriving DecidableEq, Repr

/-- The empty keypair `{ publicKey: '', secretKey: '' }`. -/
def emptyKeyPair : KeyPair := { publicKey := emptyB64, secretKey := emptyB64 }

/-- Embedding of `getOrCreateKeyPair()` from `crypto.ts` (the value it returns): empty
keys on the server side; the stored pair when present and parsable;
otherwise a freshly generated pair (which it also persists). -/
def getOrCreateKeyPair (st : CryptoStore) : KeyPair :=
  if !st.hasWindow then emptyKeyPair
  else
    match st.storedKeys with
    | .keys kp => kp
    | _ => generateKeyPair st.freshSeed

/-- Embedding of `decryptMessage(encrypted)` from `crypto.ts`: fetches the local
keypair, bails out on an empty secret key, base64-decodes the four
components (any malformed one throws, caught into `null`) and calls
`nacl.box.open`. -/
def decryptMessage (st : CryptoStore) (enc : EncryptedMessage) : Option String :=
  let kp := getOrCreateKeyPair st
  if kp.secretKey = emptyB64 then none
  else
    match kp.secretKey, enc.ciphertext, enc.nonce with
    | .key sk, some b, some n => naclOpen b n enc.ephemeralPublicKey sk
    | _, _, _ => none

/-- A `CryptoStore` holding the keypair generated from seed `s`. -/
def storeOf (s : Nat) : CryptoStore :=
  { hasWindow := true, storedKeys := .keys (generateKeyPair s), freshSeed := 0 }

end BoredChat

namespace BoredChat

/-- Embedding of `{ deviceId, publicKey }` as fetched from the device directory. -/
structure DeviceKey where
  deviceId : String
  publicKey : B64
deriving DecidableEq, Repr

/-- Embedding of `DeviceEncryptedEnvelope` from `crypto.ts`. -/
structure DeviceEncryptedEnvelope where
  deviceId : String
  encrypted : EncryptedMessage
deriving DecidableEq, Repr

/-- Embedding of `MultiDeviceEncryptedMessage` from `crypto.ts`.  The two lists are
`Option`s because a received bundle may lack them (the code guards with
`envelopes && Array.isArray(envelopes)`); the two legacy fallback fields
are optional in the interface itself. -/
structure MultiDeviceEncryptedMessage where
  recipientDevices : Option (List DeviceEncryptedEnvelope)
  senderDevices : Option (List DeviceEncryptedEnvelope)
  forRecipient : Option EncryptedMessage
  forSender : Option EncryptedMessage
deriving DecidableEq, Repr

/-- JavaScript truthiness of a `string | null` value: `null` and the
empty string are falsy.  `decryptMultiDeviceMessage` tests each
decryption result with `if (decrypted)`, so this is the notion of
"success" it actually uses. -/
def jsTruthyStr : Option String → Bool
  | some s => s ≠ ""
  | none => false

/-- One attempt of `decryptMultiDeviceMessage` on a device envelope:
decrypt and keep the result only if it is truthy. -/
def tryEnvelope (st : CryptoStore) (e : DeviceEncryptedEnvelope) : Option String :=
  let d := decryptMessage st e.encrypted
  if jsTruthyStr d then d else none

/-- One attempt on an optional legacy fallback envelope
(`if (fallback) { const d = decryptMessage(fallback); if (d) ... }`). -/
def tryFallback (st : CryptoStore) : Option EncryptedMessage → Option String
  | some e => let d := decryptMessage st e; if jsTruthyStr d then d else none
  | none => none

/-- The two in-list stages of `decryptMultiDeviceMessage` on one
(present) envelope list: first the envelope found for `myDeviceId`, then
every envelope in list order. -/
def tryEnvelopeList (st : CryptoStore) (envs : List DeviceEncryptedEnvelope)
    (myDeviceId : String) : Option String :=
  (match envs.find? (fun e => e.deviceId == myDeviceId) with
   | some e => tryEnvelope st e
   | none => none) <|>
  envs.findSome? (tryEnvelope st)

/-- Embedding of `decryptMultiDeviceMessage(message, myDeviceId, isSender)` from
`crypto.ts`: role list (device match, then all), role legacy fallback,
opposite list, opposite legacy fallback, each stopping at the first
truthy plaintext. -/
def decryptMultiDeviceMessage (st : CryptoStore) (m : MultiDeviceEncryptedMessage)
    (myDeviceId : String) (isSender : Bool) : Option String :=
  let envelopes := if isSender then m.senderDevices else m.recipientDevices
  let fallback := if isSender then m.forSender else m.forRecipient
  let otherEnvelopes := if isSender then m.recipientDevices else m.senderDevices
  let otherFallback := if isSender then m.forRecipient else m.forSender
  (match envelopes with
   | some envs => tryEnvelopeList st envs myDeviceId
   | none => none) <|>
  tryFallback st fallback <|>
  (match otherEnvelopes with
   | some envs => envs.findSome? (tryEnvelope st)
   | none => none) <|>
  tryFallback st otherFallback

/-- The successful envelopes produced by one of the two loops of
`encryptForMultipleDevices`: one `encryptMessage` call per device (the
`i`-th call consumes `rand (start + i)`), keeping the non-null ones. -/
def encryptDeviceList (plaintext : String) (devs : List DeviceKey)
    (rand : Nat → Nat × Nat) (start : Nat) : List DeviceEncryptedEnvelope :=
  devs.enum.filterMap fun p =>
    (encryptMessage plaintext p.2.publicKey (rand (start + p.1)).1 (rand (start + p.1)).2).map
      fun enc => { deviceId := p.2.deviceId, encrypted := enc }

/-- Embedding of `encryptForMultipleDevices(plaintext, recipientDeviceKeys,
senderDeviceKeys)` from `crypto.ts`, derandomised by `rand`. -/
def encryptForMultipleDevices (plaintext : String)
    (recipientDeviceKeys senderDeviceKeys : List DeviceKey)
    (rand : Nat → Nat × Nat) : Option MultiDeviceEncryptedMessage :=
  let recipientDevices := encryptDeviceList plaintext recipientDeviceKeys rand 0
  let senderDevices :=
    encryptDeviceList plaintext senderDeviceKeys rand recipientDeviceKeys.length
  if recipientDevices.isEmpty || senderDevices.isEmpty then none
  else
    some { recipientDevices := some recipientDevices,
           senderDevices := some senderDevices,
           forRecipient := recipientDevices.head?.map (·.encrypted),
           forSender := senderDevices.head?.map (·.encrypted) }

/-- Embedding of `DualEncryptedMessage` from `crypto.ts`. -/
structure DualEncryptedMessage where
  forRecipient : EncryptedMessage
  forSender : EncryptedMessage
deriving DecidableEq, Repr

/-- Embedding of `encryptForStorage(plaintext, recipientPublicKey)` from `crypto.ts`:
one envelope for the recipient key and one for the local public key;
`null` if either encryption fails. -/
def encryptForStorage (st : CryptoStore) (plaintext : String)
    (recipientPublicKey : B64) (rand : Nat → Nat × Nat) : Option DualEncryptedMessage :=
  let myKeyPair := getOrCreateKeyPair st
  match encryptMessage plaintext recipientPublicKey (rand 0).1 (rand 0).2 with
  | none => none
  | some forRecipient =>
      match encryptMessage plaintext myKeyPair.publicKey (rand 1).1 (rand 1).2 with
      | none => none
      | some forSender => some { forRecipient := forRecipient, forSender := forSender }

/-- The serialized string an outbound message carries as its `content`
field, by provenance: the untouched plaintext, a multi-device bundle, or
a legacy dual envelope (`JSON.stringify` of the latter two). -/
inductive OutboundContent where
  | plain : String → OutboundContent
  | multi : MultiDeviceEncryptedMessage → OutboundContent
  | dual : DualEncryptedMessage → OutboundContent
deriving DecidableEq, Repr

/-- Embedding of `encryptMessageMultiDevice(plaintext, …, recipientLegacyKey)` from
`multiDeviceEncrypt.ts`, after the two directory fetches resolved to
`recipientDeviceKeys`/`senderDeviceKeys` (a failed fetch resolves to the
empty list via `.catch(() => ({ devices: [] }))`).  `legacyKey = none`
models an absent or empty (falsy) `recipientLegacyKey`. -/
def encryptMessageMultiDevice (st : CryptoStore) (plaintext : String)
    (recipientDeviceKeys senderDeviceKeys : List DeviceKey)
    (legacyKey : Option B64) (rand : Nat → Nat × Nat) : Option OutboundContent :=
  let tryLegacy : Option OutboundContent :=
    match legacyKey with
    | some k => (encryptForStorage st plaintext k rand).map .dual
    | none => none
  if !recipientDeviceKeys.isEmpty && !senderDeviceKeys.isEmpty then
    match encryptForMultipleDevices plaintext recipientDeviceKeys senderDeviceKeys rand with
    | some b => some (.multi b)
    | none => tryLegacy
  else tryLegacy

/-- The content-selection logic of `handleSend` in the ChatWindow
component: multi-device encryption when both user ids are known, legacy
`encryptForStorage` when only the peer's public key is known, and —
whenever the chosen encryption returns `null` — the plaintext itself.
The resulting content is then passed to the send API unconditionally. -/
def handleSendContent (st : CryptoStore) (messageToSend : String)
    (otherUserId currentUserId : Option String) (otherLegacyKey : Option B64)
    (recipientDeviceKeys senderDeviceKeys : List DeviceKey)
    (rand : Nat → Nat × Nat) : OutboundContent :=
  if otherUserId.isSome && currentUserId.isSome then
    match encryptMessageMultiDevice st messageToSend recipientDeviceKeys senderDeviceKeys
        otherLegacyKey rand with
    | some c => c
    | none => .plain messageToSend
  else
    match otherLegacyKey with
    | some k =>
        match encryptForStorage st messageToSend k rand with
        | some d => .dual d
        | none => .plain messageToSend
    | none => .plain messageToSend

/-- The result of `JSON.parse(decodeHtmlEntities(content))` restricted
to the fields the code probes: the four bundle fields, and the legacy
single-envelope reading (`some` iff the `ciphertext`, `nonce` and
`ephemeralPublicKey` properties are all present, in which case the cast
`parsed as EncryptedMessage` yields that envelope).  A present bundle
field is modelled `some` when its value is truthy (an array for the
lists, an object for the fallbacks), matching the code's truthiness
probes on realistic JSON payloads. -/
structure ParsedContent where
  bundle : MultiDeviceEncryptedMessage
  single : Option EncryptedMessage
deriving DecidableEq, Repr

/-- Embedding of `isEncryptedMessage(content)` from `crypto.ts`: parse (entity-decode
then `JSON.parse`, modelled by the deterministic oracle `parseOf`;
`none` when `JSON.parse` throws), then probe for the dual format
(`forRecipient && forSender`) or the three legacy single-format
fields. -/
def isEncryptedMessage (parseOf : String → Option ParsedContent) (content : String) : Bool :=
  match parseOf content with
  | none => false
  | some p =>
      (p.bundle.forRecipient.isSome && p.bundle.forSender.isSome) || p.single.isSome

/-- The lock emoji U+1F512 that the ChatWindow guards look for with
`content.includes('🔒')`. -/
def lockEmoji : Char := Char.ofNat 0x1F512

/-- Embedding of `content.includes('🔒')` from the ChatWindow component: a substring
test for a single-character needle is membership of that character. -/
def containsLockEmoji (s : String) : Bool := s.data.contains lockEmoji

/-- The locked-message placeholder literal exactly as it appears (byte
for byte) in `crypto.ts`: the file stores the mojibake sequence
U+00F0 U+0178 U+201D U+2019 (`ðŸ”’`) where the lock emoji was meant, and
U+00C3 U+00A9 (`Ã©`) where `é` was meant. -/
def lockedPlaceholder : String :=
  String.mk [Char.ofNat 0xF0, Char.ofNat 0x178, Char.ofNat 0x201D, Char.ofNat 0x2019] ++
    " Message chiffr" ++ String.mk [Char.ofNat 0xC3, Char.ofNat 0xA9] ++
    " (cl" ++ String.mk [Char.ofNat 0xC3, Char.ofNat 0xA9] ++ "s incompatibles)"

/-- Embedding of `myDeviceId || localStorage.getItem('bored_chat_device_id') || ''`
from `tryDecrypt`. -/
def resolveDeviceId (myDeviceId storedDeviceId : Option String) : String :=
  let fb := storedDeviceId.getD ""
  match myDeviceId with
  | some s => if s = "" then fb else s
  | none => fb

/-- Embedding of `tryDecrypt(content, isSender, fallbackToOriginal, myDeviceId)` from
`crypto.ts`.  Structure of the source: server side returns the content
unchanged; unrecognized content is returned unchanged; a bundle with a
`recipientDevices` or `senderDevices` field goes through
`decryptMultiDeviceMessage`; the dual format tries primary, role-swapped
and then both envelopes with `!== null` checks; the legacy single format
tries the one envelope; every failed branch returns the locked
placeholder.  The `catch` branch (which would consult
`fallbackToOriginal`) is unreachable in the model: every callee inside
the `try` is total, and `JSON.parse` was already seen to succeed by
`isEncryptedMessage` (same deterministic `parseOf`). -/
def tryDecrypt (parseOf : String → Option ParsedContent) (st : CryptoStore)
    (storedDeviceId : Option String) (content : String) (isSender : Bool)
    (_fallbackToOriginal : Bool) (myDeviceId : Option String) : String :=
  if !st.hasWindow then content
  else if !isEncryptedMessage parseOf content then content
  else
    match parseOf content with
    | none => content
    | some p =>
        if p.bundle.recipientDevices.isSome || p.bundle.senderDevices.isSome then
          match decryptMultiDeviceMessage st p.bundle
              (resolveDeviceId myDeviceId storedDeviceId) isSender with
          | some s => s
          | none => lockedPlaceholder
        else if p.bundle.forRecipient.isSome && p.bundle.forSender.isSome then
          let primary := if isSender then p.bundle.forSender else p.bundle.forRecipient
          let other := if isSender then p.bundle.forRecipient else p.bundle.forSender
          match primary.bind (decryptMessage st) <|> other.bind (decryptMessage st) <|>
              p.bundle.forSender.bind (decryptMessage st) <|>
              p.bundle.forRecipient.bind (decryptMessage st) with
          | some s => s
          | none => lockedPlaceholder
        else
          match p.single with
          | some e =>
              match decryptMessage st e with
              | some s => s
              | none => lockedPlaceholder
          | none => lockedPlaceholder

/-- The fields of a `Message` record that the encryption subsystem and
the local cache touch. -/
structure Message where
  id : String
  conversation_id : String
  sender_id : String
  message_type : String
  content : String
  created_at : Nat
deriving DecidableEq, Repr

/-- What `store.put({ ...message, _stored_at })` writes: the message
plus the local-only stored-at stamp. -/
structure CachedRecord where
  msg : Message
  storedAt : Nat
deriving DecidableEq, Repr

/-- The IndexedDB-backed message store: either the database could not be
opened (or `window` is absent), or it holds a list of records keyed by
message id. -/
inductive DbState where
  | unavailable : DbState
  | available : List CachedRecord → DbState
deriving DecidableEq, Repr

/-- IndexedDB `put` with `keyPath: 'id'`: replace the record with the
same id, or append. -/
def upsertRecord (recs : List CachedRecord) (r : CachedRecord) : List CachedRecord :=
  if recs.any (fun x => x.msg.id = r.msg.id) then
    recs.map fun x => if x.msg.id = r.msg.id then r else x
  else recs ++ [r]

/-- Embedding of `storeMessage(message)` from the message store: resolves `false`
when the database is unavailable or the put request errors
(`opFails`), `true` otherwise; never rejects. -/
def storeMessage (db : DbState) (now : Nat) (opFails : Bool) (m : Message) :
    DbState × Bool :=
  match db with
  | .unavailable => (db, false)
  | .available recs =>
      if opFails then (db, false)
      else (.available (upsertRecord recs { msg := m, storedAt := now }), true)

/-- Embedding of `storeMessages(messages)`: one put per message (`fails m` models the
`m`-put erroring); resolves `errors === 0`, and `true` on the empty
list. -/
def storeMessages (db : DbState) (now : Nat) (fails : Message → Bool)
    (msgs : List Message) : DbState × Bool :=
  match db with
  | .unavailable => (db, false)
  | .available recs =>
      (.available (msgs.foldl
          (fun acc m => if fails m then acc else upsertRecord acc { msg := m, storedAt := now })
          recs),
       msgs.all fun m => !fails m)

/-- Insertion into a list kept ascending by `created_at` (the
`messages.sort` comparator of `getLocalMessages`). -/
def insertByTime (m : Message) : List Message → List Message
  | [] => [m]
  | x :: xs => if m.created_at ≤ x.created_at then m :: x :: xs else x :: insertByTime m xs

/-- Sort by `created_at` ascending. -/
def sortByTime (l : List Message) : List Message := l.foldr insertByTime []

/-- Embedding of `getLocalMessages(conversationId)`: resolves `[]` when the database
is unavailable or the index request errors; otherwise the conversation's
records sorted by creation time. -/
def getLocalMessages (db : DbState) (conversationId : String) (opFails : Bool) :
    List Message :=
  match db with
  | .unavailable => []
  | .available recs =>
      if opFails then []
      else sortByTime ((recs.filter fun r => r.msg.conversation_id = conversationId).map (·.msg))

/-- Embedding of `getLocalMessage(messageId)`: resolves `null` when the database is
unavailable, the get request errors, or no record exists. -/
def getLocalMessage (db : DbState) (messageId : String) (opFails : Bool) :
    Option Message :=
  match db with
  | .unavailable => none
  | .available recs =>
      if opFails then none
      else (recs.find? fun r => r.msg.id = messageId).map (·.msg)

/-- Embedding of `deleteLocalMessage(messageId)`: resolves `false` when the database
is unavailable or the delete request errors. -/
def deleteLocalMessage (db : DbState) (messageId : String) (opFails : Bool) :
    DbState × Bool :=
  match db with
  | .unavailable => (db, false)
  | .available recs =>
      if opFails then (db, false)
      else (.available (recs.filter fun r => ¬r.msg.id = messageId), true)

/-- Embedding of `clearAllMessages()`: resolves `false` when the database is
unavailable or the clear request errors. -/
def clearAllMessages (db : DbState) (opFails : Bool) : DbState × Bool :=
  match db with
  | .unavailable => (db, false)
  | .available _ => if opFails then (db, false) else (.available [], true)

/-- Embedding of `getMessageCount(conversationId)`: resolves `0` when the database is
unavailable or the count request errors. -/
def getMessageCount (db : DbState) (conversationId : String) (opFails : Bool) : Nat :=
  match db with
  | .unavailable => 0
  | .available recs =>
      if opFails then 0
      else (recs.filter fun r => r.msg.conversation_id = conversationId).length

/-- Embedding of `decryptMessageContent(msg, currentUserId)` from the ChatWindow
component: only text messages on the client are run through
`tryDecrypt` (with `isSender := msg.sender_id === currentUserId`). -/
def decryptMessageContent (parseOf : String → Option ParsedContent) (st : CryptoStore)
    (storedDeviceId : Option String) (msg : Message) (currentUserId : Option String) :
    Message :=
  if msg.message_type ≠ "text" then msg
  else if !st.hasWindow then msg
  else
    let isSender := currentUserId = some msg.sender_id
    { msg with content := tryDecrypt parseOf st storedDeviceId msg.content isSender true none }

/-- The cache effect of `handleNewMessage` in the ChatWindow component:
for a message of the open conversation, decrypt it and store it locally
only if `!decryptedMsg.content.includes('🔒')`. -/
def handleNewMessageStore (parseOf : String → Option ParsedContent) (st : CryptoStore)
    (storedDeviceId : Option String) (db : DbState) (now : Nat) (opFails : Bool)
    (currentConv : Option String) (msg : Message) (currentUserId : Option String) :
    DbState :=
  match currentConv with
  | none => db
  | some conv =>
      if msg.conversation_id = conv then
        let decryptedMsg := decryptMessageContent parseOf st storedDeviceId msg currentUserId
        if !containsLockEmoji decryptedMsg.content then
          (storeMessage db now opFails decryptedMsg).1
        else db
      else db

/-- The cache effect of `handleMessageEdited` in the ChatWindow
component: for an edited message of the open conversation, decrypt it
and store it locally — unconditionally. -/
def handleMessageEditedStore (parseOf : String → Option ParsedContent) (st : CryptoStore)
    (storedDeviceId : Option String) (db : DbState) (now : Nat) (opFails : Bool)
    (conversationId : String) (editedMsg : Message) (currentUserId : Option String) :
    DbState :=
  if editedMsg.conversation_id = conversationId then
    (storeMessage db now opFails
      (decryptMessageContent parseOf st storedDeviceId editedMsg currentUserId)).1
  else db

/-- The server-side answer to `api.getE2EEBackup()`: either no backup
blob exists for the account, or one does. -/
inductive BackupFetch where
  | noBackup : BackupFetch
  | backup : String → BackupFetch
deriving DecidableEq, Repr

/-- What `JSON.parse(await decryptE2EEKey(blob, password))` yields on
success: the two key fields, each possibly absent or empty. -/
structure RestoredKeys where
  publicKey : Option String
  secretKey : Option String
deriving DecidableEq, Repr

/-- Embedding of `restoreE2EEKey(password)` from `AuthContext.tsx`.  `decryptOracle`
models `decryptE2EEKey` followed by `JSON.parse` for the given password
(`none`: wrong password or corrupted blob, i.e. the `try` throws).
Returns `false` when no backup exists, and also `false` when
authentication fails. -/
def restoreE2EEKey (fetch : BackupFetch) (decryptOracle : String → Option RestoredKeys) :
    Bool :=
  match fetch with
  | .noBackup => false
  | .backup blob =>
      match decryptOracle blob with
      | none => false
      | some kp => jsTruthyStr kp.publicKey && jsTruthyStr kp.secretKey

/-- Embedding of `EnsureKeyResult` from `AuthContext.tsx`. -/
structure EnsureKeyResult where
  publicKey : Option B64
  restored : Bool
  needsRecovery : Bool
deriving DecidableEq, Repr

/-- Embedding of `ensureLocalKeyPair(password, serverPublicKey)` from
`AuthContext.tsx`.  `existing` is the result of
`getStoredLocalPublicKey()` (truthy when `some`); `restoredLookup` is
what that same lookup returns after a successful restore wrote the
keys. -/
def ensureLocalKeyPair (existing : Option B64) (fetch : BackupFetch)
    (decryptOracle : String → Option RestoredKeys) (restoredLookup : Option B64)
    (serverPublicKey : Option B64) (st : CryptoStore) : EnsureKeyResult :=
  match existing with
  | some k => { publicKey := some k, restored := false, needsRecovery := false }
  | none =>
      if restoreE2EEKey fetch decryptOracle then
        { publicKey := restoredLookup, restored := true, needsRecovery := false }
      else if serverPublicKey.isSome then
        { publicKey := none, restored := false, needsRecovery := true }
      else
        { publicKey := some (getOrCreateKeyPair st).publicKey, restored := false,
          needsRecovery := false }

/-- A `CryptoStore` for a non-persistent environment: `window` is
undefined (server-side rendering), so `localStorage` is unreachable. -/
def ssrStore : CryptoStore := { hasWindow := false, storedKeys := .absent, freshSeed := 0 }

/-- The five-stage decryption order of §4.4 of the spec, written from the
spec's words (with success meaning a non-empty plaintext): (1) the
role-matching list's envelope for my device id, (2) every other envelope
of that list, (3) that role's legacy fallback, (4) every envelope of the
opposite list, (5) the opposite legacy fallback. -/
def decryptBundleSpecOrder (st : CryptoStore) (m : MultiDeviceEncryptedMessage)
    (myDeviceId : String) (isSender : Bool) : Option String :=
  let roleList := (if isSender then m.senderDevices else m.recipientDevices).getD []
  let oppList := (if isSender then m.recipientDevices else m.senderDevices).getD []
  let roleFallback := if isSender then m.forSender else m.forRecipient
  let oppFallback := if isSender then m.forRecipient else m.forSender
  let mine := roleList.find? fun e => e.deviceId == myDeviceId
  let stage1 := match mine with
    | some e => tryEnvelope st e
    | none => none
  let others := match mine with
    | some e => roleList.erase e
    | none => roleList
  stage1 <|> others.findSome? (tryEnvelope st) <|> tryFallback st roleFallback <|>
    oppList.findSome? (tryEnvelope st) <|> tryFallback st oppFallback

/-- Predicate: `e` is one of the envelopes a multi-device bundle carries. -/
def bundleEnvelopeIn (m : MultiDeviceEncryptedMessage) (e : EncryptedMessage) : Prop :=
  (∃ d ∈ m.recipientDevices.getD [], d.encrypted = e) ∨
    (∃ d ∈ m.senderDevices.getD [], d.encrypted = e) ∨
    m.forRecipient = some e ∨ m.forSender = some e

/-- Predicate: `e` is one of the envelopes a parsed content carries, in any
position the decryption paths of `tryDecrypt` can reach. -/
def envelopeIn (p : ParsedContent) (e : EncryptedMessage) : Prop :=
  bundleEnvelopeIn p.bundle e ∨ p.single = some e

/-- A concrete envelope sealed to the public key of seed 5 with
ephemeral seed 9 — undecryptable on any store holding a different
identity. -/
def otherKeyEnv : EncryptedMessage :=
  { ciphertext := some { shared := dh 9 (pubOf 5), nonce := 3, msg := "hidden" },
    nonce := some 3, ephemeralPublicKey := .key (pubOf 9) }

/-- A concrete parsed content in the dual format whose two envelopes are
both `otherKeyEnv`. -/
def dualLockedParsed : ParsedContent :=
  { bundle := { recipientDevices := none, senderDevices := none,
                forRecipient := some otherKeyEnv, forSender := some otherKeyEnv },
    single := none }

/-- A concrete multi-device bundle all of whose envelopes are
`otherKeyEnv` — a realistic output of `encryptForMultipleDevices`
(legacy fallbacks populated) that the reader cannot decrypt. -/
def multiLockedParsed : ParsedContent :=
  { bundle := { recipientDevices := some [{ deviceId := "dev", encrypted := otherKeyEnv }],
                senderDevices := none,
                forRecipient := some otherKeyEnv, forSender := some otherKeyEnv },
    single := none }

/-- A cached message whose plaintext was decrypted successfully. -/
def cachedPlainMsg : Message :=
  { id := "m1", conversation_id := "c1", sender_id := "u2", message_type := "text",
    content := "hello", created_at := 5 }

/-- A local store caching `cachedPlainMsg`. -/
def cacheWithPlain : DbState := .available [{ msg := cachedPlainMsg, storedAt := 10 }]

/-- The same message re-delivered (as an edit or a new-message event)
with ciphertext the reader cannot decrypt. -/
def undecryptableEvent : Message := { cachedPlainMsg with content := "CIPHERTEXT" }

/-- A parse oracle mapping that ciphertext to `multiLockedParsed`. -/
def lockedParseOf : String → Option ParsedContent :=
  fun s => if s = "CIPHERTEXT" then some multiLockedParsed else none

theorem dh_comm (a b : Nat) : dh a (pubOf b) = dh b (pubOf a) := by
  simp [dh, pubOf, Nat.min_comm, Nat.max_comm]

theorem dh_inj (a b c : Nat) (h : dh a (pubOf c) = dh b (pubOf c)) : a = b := by
  simp only [dh, pubOf, Nat.add_sub_cancel] at h
  have hu := congrArg Nat.unpair h
  rw [Nat.unpair_pair, Nat.unpair_pair] at hu
  have hmin : min a c = min b c := congrArg Prod.fst hu
  have hmax : max a c = max b c := congrArg Prod.snd hu
  rcases Nat.le_total a c with hac | hac <;> rcases Nat.le_total b c with hbc | hbc <;>
    simp [Nat.min_def, Nat.max_def, hac, hbc] at hmin hmax <;> omega

theorem generateKeyPair_inj {a b : Nat} (h : generateKeyPair a = generateKeyPair b) :
    a = b := by
  simpa [generateKeyPair, pubOf] using congrArg KeyPair.secretKey h

/-- C3: for every plaintext `P`, every valid keypair `K` (one derived
from a secret seed) and every choice of ephemeral key and nonce,
decrypting the envelope produced by `encryptMessage(P, K.publicKey)`
on a device whose stored identity is `K` returns exactly `P`. -/
theorem C3_encrypt_decrypt_roundtrip (P : String) (s eph nonce : Nat) (K : KeyPair)
    (st : CryptoStore) (hK : K = generateKeyPair s) (hw : st.hasWindow = true)
    (hs : st.storedKeys = .keys K) :
    (encryptMessage P K.publicKey eph nonce).bind (decryptMessage st) = some P := by
  subst hK
  simp [encryptMessage, generateKeyPair, decryptMessage, getOrCreateKeyPair, hw, hs,
    naclOpen, emptyKeyPair, emptyB64, dh_comm eph s]

/-- Witness for C3 at seed 0, ephemeral 1, nonce 2. -/
theorem C3_encrypt_decrypt_roundtrip_witness :
    (encryptMessage "bonjour" (generateKeyPair 0).publicKey 1 2).bind
      (decryptMessage (storeOf 0)) = some "bonjour" :=
  C3_encrypt_decrypt_roundtrip "bonjour" 0 1 2 (generateKeyPair 0) (storeOf 0) rfl rfl rfl

/-- C6: decrypting an envelope encrypted to `K₁.publicKey` on a device
whose stored identity is a different keypair `K₂` returns `null`. -/
theorem C6_wrong_key_rejection (P : String) (s₁ s₂ eph nonce : Nat) (K₁ K₂ : KeyPair)
    (st : CryptoStore) (h₁ : K₁ = generateKeyPair s₁) (h₂ : K₂ = generateKeyPair s₂)
    (hne : K₁ ≠ K₂) (hw : st.hasWindow = true) (hs : st.storedKeys = .keys K₂) :
    (encryptMessage P K₁.publicKey eph nonce).bind (decryptMessage st) = none := by
  subst h₁; subst h₂
  have hss : s₁ ≠ s₂ := fun h => hne (by rw [h])
  simp only [encryptMessage, generateKeyPair, decryptMessage, getOrCreateKeyPair, hw,
    Bool.not_true, Bool.false_eq_true, if_false, hs, naclOpen, Option.bind_some]
  have hcond : ¬(dh eph (pubOf s₁) = dh s₂ (pubOf eph) ∧ nonce = nonce) := by
    rintro ⟨h, -⟩
    rw [dh_comm eph s₁] at h
    exact hss (dh_inj s₁ s₂ eph h)
  have hcond2 : ¬dh eph (pubOf s₁) = dh s₂ (pubOf eph) := fun h => hcond ⟨h, rfl⟩
  simp [emptyKeyPair, emptyB64, hcond2]

/-- Witness for C6 at seeds 0 and 1. -/
theorem C6_wrong_key_rejection_witness :
    (encryptMessage "x" (generateKeyPair 0).publicKey 2 3).bind
      (decryptMessage (storeOf 1)) = none :=
  C6_wrong_key_rejection "x" 0 1 2 3 (generateKeyPair 0) (generateKeyPair 1) (storeOf 1)
    rfl rfl (by decide) rfl rfl

/-- C9 counterexample: in a non-persistent environment (no `window`),
`getOrCreateKeyPair` does not return a usable transient keypair — it
returns the empty pair, encryption under its public key fails, and
decryption on such a store fails, already at this concrete input. -/
theorem C9_counterexample :
    getOrCreateKeyPair ssrStore = emptyKeyPair ∧
    encryptMessage "hello" (getOrCreateKeyPair ssrStore).publicKey 1 2 = none ∧
    (encryptMessage "hello" (generateKeyPair 3).publicKey 1 2).bind
      (decryptMessage ssrStore) = none := by
  decide

/-- C9 as amended: when persistent storage is unavailable,
`getOrCreateKeyPair` returns the empty keypair — detectably
non-persistent, but unusable: encryption under its public key and any
decryption on such a store both fail. -/
theorem C9_nonpersistent_empty_keys (st : CryptoStore) (P : String) (eph nonce : Nat)
    (e : EncryptedMessage) (hw : st.hasWindow = false) :
    getOrCreateKeyPair st = emptyKeyPair ∧
    encryptMessage P (getOrCreateKeyPair st).publicKey eph nonce = none ∧
    decryptMessage st e = none := by
  simp [getOrCreateKeyPair, hw, emptyKeyPair, emptyB64, encryptMessage, decryptMessage]

/-- Witness for the amended C9 on the concrete SSR store. -/
theorem C9_nonpersistent_empty_keys_witness :
    getOrCreateKeyPair ssrStore = emptyKeyPair :=
  (C9_nonpersistent_empty_keys ssrStore "hi" 1 2
    { ciphertext := none, nonce := none, ephemeralPublicKey := emptyB64 } rfl).1

/-- C10: every local message-store operation is fail-soft — when the
database is unavailable or the storage operation errors, it settles with
its neutral value (`false`, `[]`, `none`, `0`); `storeMessages` settles
`false` as soon as one per-message put errors. -/
theorem C10_cache_fail_soft (db : DbState) (opFails : Bool) (now : Nat) (m : Message)
    (msgs : List Message) (fails : Message → Bool) (messageId conversationId : String)
    (h : db = DbState.unavailable ∨ opFails = true) :
    (storeMessage db now opFails m).2 = false ∧
    (deleteLocalMessage db messageId opFails).2 = false ∧
    (clearAllMessages db opFails).2 = false ∧
    getLocalMessages db conversationId opFails = [] ∧
    getLocalMessage db messageId opFails = none ∧
    getMessageCount db conversationId opFails = 0 ∧
    ((db = DbState.unavailable ∨ ∃ x ∈ msgs, fails x = true) →
      (storeMessages db now fails msgs).2 = false) := by
  rcases h with h | h
  · subst h
    simp [storeMessage, deleteLocalMessage, clearAllMessages, getLocalMessages,
      getLocalMessage, getMessageCount, storeMessages]
  · subst h
    cases db <;>
      simp [storeMessage, deleteLocalMessage, clearAllMessages, getLocalMessages,
        getLocalMessage, getMessageCount, storeMessages, List.all_eq_false]

/-- Witness for C10 on an unavailable database. -/
theorem C10_cache_fail_soft_witness :
    (storeMessage DbState.unavailable 0 false
      { id := "m", conversation_id := "c", sender_id := "u", message_type := "text",
        content := "x", created_at := 0 }).2 = false :=
  (C10_cache_fail_soft DbState.unavailable false 0
    { id := "m", conversation_id := "c", sender_id := "u", message_type := "text",
      content := "x", created_at := 0 }
    [] (fun _ => false) "m" "c" (Or.inl rfl)).1

/-- C5: `encryptForMultipleDevices` returns `null` exactly when one of
the two per-device envelope lists comes out empty, and on success the
two legacy fallback fields are the encrypted envelopes of the first
entries of the two lists. -/
theorem C5_fanout_null_iff_and_fallback (p : String) (rdevs sdevs : List DeviceKey)
    (rand : Nat → Nat × Nat) :
    (encryptForMultipleDevices p rdevs sdevs rand = none ↔
      encryptDeviceList p rdevs rand 0 = [] ∨
      encryptDeviceList p sdevs rand rdevs.length = []) ∧
    ∀ b, encryptForMultipleDevices p rdevs sdevs rand = some b →
      b.recipientDevices = some (encryptDeviceList p rdevs rand 0) ∧
      b.senderDevices = some (encryptDeviceList p sdevs rand rdevs.length) ∧
      b.forRecipient = (encryptDeviceList p rdevs rand 0).head?.map (·.encrypted) ∧
      b.forSender = (encryptDeviceList p sdevs rand rdevs.length).head?.map (·.encrypted) := by
  constructor
  · simp only [encryptForMultipleDevices]
    by_cases h1 : encryptDeviceList p rdevs rand 0 = [] <;>
      by_cases h2 : encryptDeviceList p sdevs rand rdevs.length = [] <;>
        simp [h1, h2, List.isEmpty_iff]
  · intro b hb
    simp only [encryptForMultipleDevices] at hb
    by_cases h1 : encryptDeviceList p rdevs rand 0 = []
    · simp [h1, List.isEmpty_iff] at hb
    · by_cases h2 : encryptDeviceList p sdevs rand rdevs.length = []
      · simp [h1, h2, List.isEmpty_iff] at hb
      · simp only [List.isEmpty_iff, h1, h2, Bool.or_eq_true, or_self, if_false,
          decide_eq_true_eq, or_false, false_or, if_neg, Option.some.injEq] at hb
        subst hb
        simp

/-- Witness for C5: with no devices at all the fan-out returns `null`. -/
theorem C5_fanout_null_iff_and_fallback_witness :
    encryptForMultipleDevices "m" [] [] (fun _ => (0, 0)) = none :=
  (C5_fanout_null_iff_and_fallback "m" [] [] (fun _ => (0, 0))).1.mpr (Or.inl rfl)

/-- C1 counterexample: with no encryption key available (empty device
lists, no legacy key), `encryptMessageMultiDevice` returns `null` and
`handleSend` does not abort — the content handed to the send API is the
plaintext itself. -/
theorem C1_counterexample :
    encryptMessageMultiDevice (storeOf 0) "hello" [] [] none (fun _ => (0, 0)) = none ∧
    handleSendContent (storeOf 0) "hello" (some "u2") (some "u1") none [] []
      (fun _ => (0, 0)) = OutboundContent.plain "hello" := by
  decide

/-- C1 as amended: whenever multi-device encryption returns `null` and
no legacy recipient key is known, `handleSend` falls through and
transmits the plaintext as the message content — the send is not
aborted and there is no user-visible error. -/
theorem C1_plaintext_fallthrough (st : CryptoStore) (p : String)
    (otherUserId currentUserId : String) (rdevs sdevs : List DeviceKey)
    (rand : Nat → Nat × Nat)
    (hm : encryptMessageMultiDevice st p rdevs sdevs none rand = none) :
    handleSendContent st p (some otherUserId) (some currentUserId) none rdevs sdevs rand =
      OutboundContent.plain p := by
  simp [handleSendContent, hm]

/-- Witness for the amended C1 at a concrete no-key send. -/
theorem C1_plaintext_fallthrough_witness :
    handleSendContent (storeOf 0) "hello" (some "u2") (some "u1") none [] []
      (fun _ => (0, 0)) = OutboundContent.plain "hello" :=
  C1_plaintext_fallthrough (storeOf 0) "hello" "u2" "u1" [] [] (fun _ => (0, 0)) (by decide)

/-- C8 counterexample: `restoreE2EEKey` returns `false` both when no
backup exists and when the backup fails to authenticate, and
`ensureLocalKeyPair` then behaves identically in the two cases — the
caller cannot distinguish them. -/
theorem C8_counterexample :
    restoreE2EEKey BackupFetch.noBackup (fun _ => none) = false ∧
    restoreE2EEKey (BackupFetch.backup "blob") (fun _ => none) = false ∧
    ensureLocalKeyPair none BackupFetch.noBackup (fun _ => none) none
        (some (B64.key 9)) (storeOf 0) =
      ensureLocalKeyPair none (BackupFetch.backup "blob") (fun _ => none) none
        (some (B64.key 9)) (storeOf 0) := by
  decide

/-- C8 as amended: authentication failure and absence of a backup both
make `restoreE2EEKey` return `false`, and `ensureLocalKeyPair` resolves
the two cases identically (the choice between the recovery path and a
fresh identity depends only on whether a server public key exists). -/
theorem C8_restore_indistinguishable (decryptOracle : String → Option RestoredKeys)
    (blob : String) (serverPublicKey restoredLookup : Option B64) (st : CryptoStore)
    (hauth : decryptOracle blob = none) :
    restoreE2EEKey (BackupFetch.backup blob) decryptOracle = false ∧
    restoreE2EEKey BackupFetch.noBackup decryptOracle = false ∧
    ensureLocalKeyPair none (BackupFetch.backup blob) decryptOracle restoredLookup
        serverPublicKey st =
      ensureLocalKeyPair none BackupFetch.noBackup decryptOracle restoredLookup
        serverPublicKey st := by
  simp [restoreE2EEKey, ensureLocalKeyPair, hauth]

/-- Witness for the amended C8 at a concrete failing oracle. -/
theorem C8_restore_indistinguishable_witness :
    restoreE2EEKey (BackupFetch.backup "blob") (fun _ => none) = false :=
  (C8_restore_indistinguishable (fun _ => none) "blob" none none (storeOf 0) rfl).1

theorem findSome?_skip_found {α β : Type} [DecidableEq α] {p : α → Bool}
    {f : α → Option β} {l : List α} {e : α}
    (hfind : l.find? p = some e) (hfe : f e = none) :
    l.findSome? f = (l.erase e).findSome? f := by
  induction l with
  | nil => simp at hfind
  | cons a t ih =>
    by_cases hpa : p a
    · rw [List.find?_cons_of_pos _ hpa] at hfind
      cases hfind
      simp [List.findSome?_cons, List.erase_cons_head, hfe]
    · rw [List.find?_cons_of_neg _ hpa] at hfind
      have hpe : p e := List.find?_some hfind
      have hne : ¬a = e := fun h => hpa (h ▸ hpe)
      rw [List.erase_cons_tail (by simpa using hne)]
      rw [List.findSome?_cons, List.findSome?_cons]
      cases hfa : f a
      · simpa [hfa] using ih hfind
      · rfl

theorem stage12_eq (st : CryptoStore) (envs : List DeviceEncryptedEnvelope)
    (myDeviceId : String) (rest : Option String) :
    (tryEnvelopeList st envs myDeviceId <|> rest) =
    ((match envs.find? (fun e : DeviceEncryptedEnvelope => e.deviceId == myDeviceId) with
      | some e => tryEnvelope st e
      | none => none) <|>
     ((match envs.find? (fun e : DeviceEncryptedEnvelope => e.deviceId == myDeviceId) with
       | some e => envs.erase e
       | none => envs).findSome? (tryEnvelope st) <|> rest)) := by
  unfold tryEnvelopeList
  cases hfind : envs.find? (fun e : DeviceEncryptedEnvelope => e.deviceId == myDeviceId) with
  | none =>
      simp only [Option.none_orElse]
  | some e =>
      cases hf : tryEnvelope st e with
      | some v => simp [hf]
      | none =>
          simp only [hf, Option.none_orElse]
          rw [findSome?_skip_found hfind hf]

/-- C4 counterexample: a bundle whose role-matching device envelope
decrypts successfully — to the empty string — makes
`decryptMultiDeviceMessage` return `null` even though the first stage
succeeded, because every stage tests its result with JavaScript
truthiness (`if (decrypted)`) and the empty string is falsy. -/
theorem C4_counterexample :
    decryptMessage (storeOf 0)
        { ciphertext := some { shared := dh 5 (pubOf 0), nonce := 7, msg := "" },
          nonce := some 7, ephemeralPublicKey := .key (pubOf 5) } = some "" ∧
    decryptMultiDeviceMessage (storeOf 0)
        { recipientDevices := some
            [{ deviceId := "dev",
               encrypted :=
                 { ciphertext := some { shared := dh 5 (pubOf 0), nonce := 7, msg := "" },
                   nonce := some 7, ephemeralPublicKey := .key (pubOf 5) } }],
          senderDevices := none, forRecipient := none, forSender := none }
        "dev" false = none := by
  decide

/-- C4 as amended: `decryptMultiDeviceMessage` realises exactly the
five-stage precedence order of the claim where an attempt counts as
successful only when it yields a non-empty plaintext (a result of `null`
or of the empty string is treated as failure and the chain continues);
it returns `null` iff no stage yields a non-empty plaintext. -/
theorem C4_precedence_order (st : CryptoStore) (m : MultiDeviceEncryptedMessage)
    (myDeviceId : String) (isSender : Bool) :
    decryptMultiDeviceMessage st m myDeviceId isSender =
      decryptBundleSpecOrder st m myDeviceId isSender := by
  unfold decryptMultiDeviceMessage decryptBundleSpecOrder
  cases isSender
  · cases hrole : m.recipientDevices <;> cases hopp : m.senderDevices <;>
      simp only [hrole, hopp, Bool.false_eq_true, if_false, Option.getD_some,
        Option.getD_none, List.findSome?_nil, List.find?_nil, Option.none_orElse] <;>
      exact stage12_eq st _ myDeviceId _
  · cases hrole : m.senderDevices <;> cases hopp : m.recipientDevices <;>
      simp only [hrole, hopp, if_true, Option.getD_some,
        Option.getD_none, List.findSome?_nil, List.find?_nil, Option.none_orElse] <;>
      exact stage12_eq st _ myDeviceId _

theorem orElse_eq_some_cases {α : Type} {a b : Option α} {c : α}
    (h : (a <|> b) = some c) : a = some c ∨ b = some c := by
  cases a <;> simp_all

theorem tryEnvelope_decrypt {st : CryptoStore} {e : DeviceEncryptedEnvelope} {s : String}
    (h : tryEnvelope st e = some s) : decryptMessage st e.encrypted = some s := by
  unfold tryEnvelope at h
  by_cases hd : jsTruthyStr (decryptMessage st e.encrypted) <;> simp [hd] at h
  exact h

theorem tryFallback_decrypt {st : CryptoStore} {o : Option EncryptedMessage} {s : String}
    (h : tryFallback st o = some s) : ∃ e, o = some e ∧ decryptMessage st e = some s := by
  cases o with
  | none => simp [tryFallback] at h
  | some e =>
      refine ⟨e, rfl, ?_⟩
      unfold tryFallback at h
      by_cases hd : jsTruthyStr (decryptMessage st e) <;> simp [hd] at h
      exact h

theorem findSome?_tryEnvelope_decrypt {st : CryptoStore}
    {envs : List DeviceEncryptedEnvelope} {s : String}
    (h : envs.findSome? (tryEnvelope st) = some s) :
    ∃ d ∈ envs, decryptMessage st d.encrypted = some s := by
  obtain ⟨d, hd, hf⟩ := List.exists_of_findSome?_eq_some h
  exact ⟨d, hd, tryEnvelope_decrypt hf⟩

theorem tryEnvelopeList_decrypt {st : CryptoStore} {envs : List DeviceEncryptedEnvelope}
    {myId s : String} (h : tryEnvelopeList st envs myId = some s) :
    ∃ d ∈ envs, decryptMessage st d.encrypted = some s := by
  unfold tryEnvelopeList at h
  rcases orElse_eq_some_cases h with h1 | h2
  · cases hfind : envs.find? (fun e : DeviceEncryptedEnvelope => e.deviceId == myId) with
    | none => rw [hfind] at h1; cases h1
    | some e =>
        rw [hfind] at h1
        exact ⟨e, List.mem_of_find?_eq_some hfind, tryEnvelope_decrypt h1⟩
  · exact findSome?_tryEnvelope_decrypt h2

theorem decryptMultiDeviceMessage_decrypt {st : CryptoStore}
    {m : MultiDeviceEncryptedMessage} {myId s : String} {isSender : Bool}
    (h : decryptMultiDeviceMessage st m myId isSender = some s) :
    ∃ e, bundleEnvelopeIn m e ∧ decryptMessage st e = some s := by
  unfold decryptMultiDeviceMessage at h
  cases isSender <;>
    simp only [Bool.false_eq_true, if_false, if_true] at h <;>
    rcases orElse_eq_some_cases h with h1 | h2
  · cases hrd : m.recipientDevices with
    | none => rw [hrd] at h1; cases h1
    | some envs =>
        rw [hrd] at h1
        obtain ⟨d, hd, hdec⟩ := tryEnvelopeList_decrypt h1
        exact ⟨d.encrypted, Or.inl ⟨d, by simp [hrd, hd], rfl⟩, hdec⟩
  · rcases orElse_eq_some_cases h2 with h3 | h4
    · obtain ⟨e, he, hdec⟩ := tryFallback_decrypt h3
      exact ⟨e, Or.inr (Or.inr (Or.inl he)), hdec⟩
    · rcases orElse_eq_some_cases h4 with h5 | h6
      · cases hsd : m.senderDevices with
        | none => rw [hsd] at h5; cases h5
        | some envs =>
            rw [hsd] at h5
            obtain ⟨d, hd, hdec⟩ := findSome?_tryEnvelope_decrypt h5
            exact ⟨d.encrypted, Or.inr (Or.inl ⟨d, by simp [hsd, hd], rfl⟩), hdec⟩
      · obtain ⟨e, he, hdec⟩ := tryFallback_decrypt h6
        exact ⟨e, Or.inr (Or.inr (Or.inr he)), hdec⟩
  · cases hsd : m.senderDevices with
    | none => rw [hsd] at h1; cases h1
    | some envs =>
        rw [hsd] at h1
        obtain ⟨d, hd, hdec⟩ := tryEnvelopeList_decrypt h1
        exact ⟨d.encrypted, Or.inr (Or.inl ⟨d, by simp [hsd, hd], rfl⟩), hdec⟩
  · rcases orElse_eq_some_cases h2 with h3 | h4
    · obtain ⟨e, he, hdec⟩ := tryFallback_decrypt h3
      exact ⟨e, Or.inr (Or.inr (Or.inr he)), hdec⟩
    · rcases orElse_eq_some_cases h4 with h5 | h6
      · cases hrd : m.recipientDevices with
        | none => rw [hrd] at h5; cases h5
        | some envs =>
            rw [hrd] at h5
            obtain ⟨d, hd, hdec⟩ := findSome?_tryEnvelope_decrypt h5
            exact ⟨d.encrypted, Or.inl ⟨d, by simp [hrd, hd], rfl⟩, hdec⟩
      · obtain ⟨e, he, hdec⟩ := tryFallback_decrypt h6
        exact ⟨e, Or.inr (Or.inr (Or.inl he)), hdec⟩

/-- C7: on the client, for every content recognized as an encrypted
message, `tryDecrypt` (total, hence never throwing) returns either the
locked-message placeholder or the genuine decryption of one of the
envelopes the content carries — never the raw ciphertext content. -/
theorem C7_placeholder_or_decryption (parseOf : String → Option ParsedContent)
    (st : CryptoStore) (storedDeviceId myDeviceId : Option String) (content : String)
    (isSender fb : Bool) (p : ParsedContent) (hw : st.hasWindow = true)
    (hp : parseOf content = some p)
    (henc : isEncryptedMessage parseOf content = true) :
    tryDecrypt parseOf st storedDeviceId content isSender fb myDeviceId =
      lockedPlaceholder ∨
    ∃ e, envelopeIn p e ∧
      decryptMessage st e =
        some (tryDecrypt parseOf st storedDeviceId content isSender fb myDeviceId) := by
  unfold tryDecrypt
  simp only [hw, henc, hp, Bool.not_true, Bool.false_eq_true, if_false]
  by_cases hmulti :
      (p.bundle.recipientDevices.isSome || p.bundle.senderDevices.isSome) = true
  · simp only [hmulti, if_true]
    cases hdec : decryptMultiDeviceMessage st p.bundle
        (resolveDeviceId myDeviceId storedDeviceId) isSender with
    | none => exact Or.inl rfl
    | some s =>
        obtain ⟨e, he, hd⟩ := decryptMultiDeviceMessage_decrypt hdec
        exact Or.inr ⟨e, Or.inl he, hd⟩
  · simp only [hmulti, if_false, Bool.false_eq_true]
    by_cases hdual :
        (p.bundle.forRecipient.isSome && p.bundle.forSender.isSome) = true
    · simp only [hdual, if_true]
      cases hchain :
          ((if isSender then p.bundle.forSender else p.bundle.forRecipient).bind
              (decryptMessage st) <|>
            (if isSender then p.bundle.forRecipient else p.bundle.forSender).bind
              (decryptMessage st) <|>
            p.bundle.forSender.bind (decryptMessage st) <|>
            p.bundle.forRecipient.bind (decryptMessage st)) with
      | none => exact Or.inl rfl
      | some s =>
          refine Or.inr ?_
          have hmem : ∃ e, (p.bundle.forRecipient = some e ∨ p.bundle.forSender = some e) ∧
              decryptMessage st e = some s := by
            rcases orElse_eq_some_cases hchain with h1 | h'
            · cases isSender <;> simp only [Bool.false_eq_true, if_false, if_true] at h1 <;>
                [(cases hfr : p.bundle.forRecipient with
                  | none => rw [hfr] at h1; cases h1
                  | some e => rw [hfr] at h1; exact ⟨e, Or.inl rfl, h1⟩);
                 (cases hfs : p.bundle.forSender with
                  | none => rw [hfs] at h1; cases h1
                  | some e => rw [hfs] at h1; exact ⟨e, Or.inr rfl, h1⟩)]
            · rcases orElse_eq_some_cases h' with h2 | h''
              · cases isSender <;> simp only [Bool.false_eq_true, if_false, if_true] at h2 <;>
                  [(cases hfs : p.bundle.forSender with
                    | none => rw [hfs] at h2; cases h2
                    | some e => rw [hfs] at h2; exact ⟨e, Or.inr rfl, h2⟩);
                   (cases hfr : p.bundle.forRecipient with
                    | none => rw [hfr] at h2; cases h2
                    | some e => rw [hfr] at h2; exact ⟨e, Or.inl rfl, h2⟩)]
              · rcases orElse_eq_some_cases h'' with h3 | h4
                · cases hfs : p.bundle.forSender with
                  | none => rw [hfs] at h3; cases h3
                  | some e => rw [hfs] at h3; exact ⟨e, Or.inr rfl, h3⟩
                · cases hfr : p.bundle.forRecipient with
                  | none => rw [hfr] at h4; cases h4
                  | some e => rw [hfr] at h4; exact ⟨e, Or.inl rfl, h4⟩
          obtain ⟨e, he, hd⟩ := hmem
          exact ⟨e, Or.inl (Or.inr (Or.inr he)), hd⟩
    · simp only [hdual, if_false, Bool.false_eq_true]
      cases hsingle : p.single with
      | none => exact Or.inl rfl
      | some e =>
          cases hd : decryptMessage st e with
          | none => exact Or.inl (by simp [hd])
          | some s => exact Or.inr ⟨e, Or.inr hsingle, by simp [hd]⟩

/-- Witness for C7: a dual-format content whose two envelopes are sealed
to a foreign key yields the locked placeholder (or a genuine
decryption) on a store holding the identity of seed 0. -/
theorem C7_placeholder_or_decryption_witness :
    tryDecrypt (fun _ => some dualLockedParsed) (storeOf 0) none "c" false true none =
      lockedPlaceholder ∨
    ∃ e, envelopeIn dualLockedParsed e ∧
      decryptMessage (storeOf 0) e =
        some (tryDecrypt (fun _ => some dualLockedParsed) (storeOf 0) none "c" false true
          none) :=
  C7_placeholder_or_decryption (fun _ => some dualLockedParsed) (storeOf 0) none none "c"
    false true dualLockedParsed rfl rfl rfl

/-- C2, evaluated at the failing input: the locked placeholder `crypto.ts`
actually returns does not contain the lock emoji U+1F512 that the
ChatWindow guards test for (the source literal is mojibake), so (a) the
edited-message handler — which stores unconditionally — and (b) the
new-message handler — whose `includes('🔒')` guard never fires —
both overwrite the cached, successfully decrypted plaintext `"hello"`
with the locked placeholder when the new ciphertext cannot be
decrypted. -/
theorem C2_cache_overwritten_by_placeholder :
    containsLockEmoji lockedPlaceholder = false ∧
    getLocalMessage
        (handleMessageEditedStore lockedParseOf (storeOf 0) none cacheWithPlain 11 false
          "c1" undecryptableEvent (some "u1")) "m1" false =
      some { undecryptableEvent with content := lockedPlaceholder } ∧
    getLocalMessage
        (handleNewMessageStore lockedParseOf (storeOf 0) none cacheWithPlain 11 false
          (some "c1") undecryptableEvent (some "u1")) "m1" false =
      some { undecryptableEvent with content := lockedPlaceholder } := by
  decide

end BoredChat
